import Mathlib

/-!
Shallow embedding of the PalletSense geospatial anomaly-detection core
(src/main.py, src/main2.py): nearest-route-point matching, the per-entity
deviation scan, the pairwise and the coarse first-vs-last stationary checks,
and the statistical alert tiering.

Modelling conventions:
* coordinates and timestamps are rationals; timestamps are in hours
  (the Python code divides `total_seconds()` by 3600 before comparing);
* the geodesic distance function (geopy's `geodesic(...).meters`, an external
  library wrapped by `haversine` in both scripts) is an abstract parameter
  `dist : ℚ × ℚ → ℚ × ℚ → ℚ` of every definition; `sqDist` is a concrete
  instance used to evaluate the development on concrete inputs;
* pandas tables become lists of rows; `NaT` cells become `Option ℚ = none`;
* the one uncaught exception of the core (`Series.idxmin` on an empty route
  table) becomes an `Except` error that propagates through the whole batch.
-/

namespace PalletSense

/-- One telemetry row of `ongoing_trips`: latitude, longitude and a
timestamp in hours. -/
structure Sample where
  lat : ℚ
  lon : ℚ
  ts : ℚ
deriving Repr, DecidableEq, Inhabited

/-- One waypoint of the reference route (a `known_routes` row). -/
structure RoutePoint where
  lat : ℚ
  lon : ℚ
deriving Repr, DecidableEq, Inhabited

/-- A concrete distance function for evaluating definitions on concrete
inputs.  The production code delegates to geopy's geodesic distance
(`haversine` in both scripts wraps `geodesic(...).meters`), an external
library; every theorem below is parametric in the distance function, so
any concrete instance serves for evaluation. -/
def sqDist (a b : ℚ × ℚ) : ℚ :=
  (a.1 - b.1) * (a.1 - b.1) + (a.2 - b.2) * (a.2 - b.2)

/-- Embedding of `find_nearest_route_point` (src/main.py lines 88-92): computes the
per-waypoint distances, takes their minimum (`Series.min`) and the waypoint
at the first index attaining it (`Series.idxmin` returns the first
occurrence of the minimum).  On an empty route table `idxmin` raises,
embedded here as `none`. -/
def find_nearest_route_point (dist : ℚ × ℚ → ℚ × ℚ → ℚ) (p : ℚ × ℚ) :
    List RoutePoint → Option (ℚ × RoutePoint)
  | [] => none
  | q :: qs =>
    match find_nearest_route_point dist p qs with
    | none => some (dist p (q.lat, q.lon), q)
    | some (m, r) =>
      if dist p (q.lat, q.lon) ≤ m then some (dist p (q.lat, q.lon), q)
      else some (m, r)

theorem find_nearest_route_point_eq_none_iff
    (dist : ℚ × ℚ → ℚ × ℚ → ℚ) (p : ℚ × ℚ) (route : List RoutePoint) :
    find_nearest_route_point dist p route = none ↔ route = [] := by
  cases route with
  | nil => simp [find_nearest_route_point]
  | cons q qs =>
    simp only [find_nearest_route_point]
    cases h : find_nearest_route_point dist p qs with
    | none => simp
    | some mr =>
      obtain ⟨m, r⟩ := mr
      by_cases hd : dist p (q.lat, q.lon) ≤ m <;> simp [hd]

theorem find_nearest_route_point_le
    (dist : ℚ × ℚ → ℚ × ℚ → ℚ) (p : ℚ × ℚ) (route : List RoutePoint)
    (m : ℚ) (r : RoutePoint)
    (h : find_nearest_route_point dist p route = some (m, r)) :
    ∀ q ∈ route, m ≤ dist p (q.lat, q.lon) := by
  induction route generalizing m r with
  | nil => simp [find_nearest_route_point] at h
  | cons q qs ih =>
    simp only [find_nearest_route_point] at h
    cases hrec : find_nearest_route_point dist p qs with
    | none =>
      rw [hrec] at h
      obtain ⟨rfl, rfl⟩ : dist p (q.lat, q.lon) = m ∧ q = r := by
        simpa using h
      intro x hx
      rcases List.mem_cons.mp hx with rfl | hx
      · exact le_refl _
      · exact absurd hrec ((find_nearest_route_point_eq_none_iff dist p qs).not.mpr
          (List.ne_nil_of_mem hx))
    | some mr =>
      obtain ⟨m', r'⟩ := mr
      rw [hrec] at h
      by_cases hd : dist p (q.lat, q.lon) ≤ m'
      · simp only [hd, if_pos] at h
        obtain ⟨rfl, rfl⟩ : dist p (q.lat, q.lon) = m ∧ q = r := by simpa using h
        intro x hx
        rcases List.mem_cons.mp hx with rfl | hx
        · exact le_refl _
        · exact le_trans hd (ih m' r' hrec x hx)
      · simp only [hd, if_neg, not_false_iff] at h
        obtain ⟨rfl, rfl⟩ : m' = m ∧ r' = r := by simpa using h
        intro x hx
        rcases List.mem_cons.mp hx with rfl | hx
        · exact le_of_lt (lt_of_not_le hd)
        · exact ih m' r' hrec x hx

theorem find_nearest_route_point_first
    (dist : ℚ × ℚ → ℚ × ℚ → ℚ) (p : ℚ × ℚ) (route : List RoutePoint)
    (m : ℚ) (r : RoutePoint)
    (h : find_nearest_route_point dist p route = some (m, r)) :
    ∃ i, ∃ hi : i < route.length,
      route.get ⟨i, hi⟩ = r ∧ dist p (r.lat, r.lon) = m ∧
      ∀ j, j < i → ∀ hj : j < route.length,
        m < dist p ((route.get ⟨j, hj⟩).lat, (route.get ⟨j, hj⟩).lon) := by
  induction route generalizing m r with
  | nil => simp [find_nearest_route_point] at h
  | cons q qs ih =>
    simp only [find_nearest_route_point] at h
    cases hrec : find_nearest_route_point dist p qs with
    | none =>
      rw [hrec] at h
      obtain ⟨rfl, rfl⟩ : dist p (q.lat, q.lon) = m ∧ q = r := by simpa using h
      exact ⟨0, by simp, rfl, rfl, fun j hj _ => absurd hj (Nat.not_lt_zero j)⟩
    | some mr =>
      obtain ⟨m', r'⟩ := mr
      rw [hrec] at h
      by_cases hd : dist p (q.lat, q.lon) ≤ m'
      · simp only [hd, if_pos] at h
        obtain ⟨rfl, rfl⟩ : dist p (q.lat, q.lon) = m ∧ q = r := by simpa using h
        exact ⟨0, by simp, rfl, rfl, fun j hj _ => absurd hj (Nat.not_lt_zero j)⟩
      · simp only [hd, if_neg, not_false_iff] at h
        obtain ⟨rfl, rfl⟩ : m' = m ∧ r' = r := by simpa using h
        obtain ⟨i, hi, hget, hdist, hfirst⟩ := ih m' r' hrec
        refine ⟨i + 1, by simpa using Nat.succ_lt_succ hi, by simpa using hget,
          hdist, ?_⟩
        intro j hj hjlen
        cases j with
        | zero => exact lt_of_not_le hd
        | succ k =>
          have hk : k < i := Nat.lt_of_succ_lt_succ hj
          have hklen : k < qs.length := Nat.lt_of_succ_lt_succ hjlen
          simpa using hfirst k hk hklen

/-- The one error the deviation pass can raise: `Series.idxmin` on an
empty route table (src/main.py line 91) raises; the spec's error taxonomy
names this condition `EmptyRoute`. -/
inductive DevError where
  | EmptyRoute
deriving Repr, DecidableEq

/-- An `ongoing_trips` row inside `check_route_adherence`: the sample plus
the two columns initialised at src/main.py lines 96-97
(`Deviation = False`, `Deviation_Start = NaT`, i.e. `none`). -/
structure DevRow where
  sample : Sample
  deviation : Bool
  devStart : Option ℚ
deriving Repr, DecidableEq, Inhabited

/-- A row as initialised before the loop (src/main.py lines 96-97). -/
def initDevRow (s : Sample) : DevRow :=
  { sample := s, deviation := false, devStart := none }

/-- The body of the `iterrows` loop of `check_route_adherence`
(src/main.py lines 103-111) for one row.  `row` is the row as yielded by
`iterrows` — a snapshot of the table taken when iteration began, in which
mutations made through `trip_data.at` are not visible — while `cur` is the
live table's row at the same index, the one being written. -/
def devStep (thr tthr : ℚ) (minDistance : ℚ) (row cur : DevRow) : DevRow :=
  if thr < minDistance then
    if row.devStart.isNone then
      { cur with devStart := some row.sample.ts }
    else
      if tthr ≤ row.sample.ts - row.devStart.getD 0 then
        { cur with deviation := true }
      else cur
  else
    { cur with devStart := none }

/-- The `iterrows` loop of `check_route_adherence`: `init` is the snapshot
the iterator yields rows from, `table` the live table receiving the
`trip_data.at[idx, ...]` writes; the fuel counts the remaining rows, so
indices 0, 1, ..., n-1 are visited in order. -/
def adhLoop (dist : ℚ × ℚ → ℚ × ℚ → ℚ) (route : List RoutePoint)
    (thr tthr : ℚ) (init : List DevRow) :
    List DevRow → ℕ → ℕ → Except DevError (List DevRow)
  | table, _, 0 => .ok table
  | table, idx, fuel + 1 =>
    let row := init.getD idx default
    match find_nearest_route_point dist (row.sample.lat, row.sample.lon) route with
    | none => .error .EmptyRoute
    | some (m, _) =>
      adhLoop dist route thr tthr init
        (table.set idx (devStep thr tthr m row (table.getD idx default)))
        (idx + 1) fuel

/-- Embedding of `check_route_adherence` (src/main.py lines 95-113) over
one entity's rows. -/
def check_route_adherence (dist : ℚ × ℚ → ℚ × ℚ → ℚ) (route : List RoutePoint)
    (thr tthr : ℚ) (data : List Sample) : Except DevError (List DevRow) :=
  let init := data.map initDevRow
  adhLoop dist route thr tthr init init 0 init.length

/-- Embedding of `ongoing_trips.groupby('Pallet_ID').apply(check_route_adherence)`
(src/main.py line 116): one `check_route_adherence` call per entity group;
an uncaught exception in any call aborts the whole pass. -/
def deviation_pass (dist : ℚ × ℚ → ℚ × ℚ → ℚ) (route : List RoutePoint)
    (thr tthr : ℚ) :
    List (String × List Sample) → Except DevError (List (String × List DevRow))
  | [] => .ok []
  | g :: gs => do
    let out ← check_route_adherence dist route thr tthr g.2
    let rest ← deviation_pass dist route thr tthr gs
    .ok ((g.1, out) :: rest)

theorem devStep_deviation (thr tthr m : ℚ) (row cur : DevRow)
    (hrow : row.devStart = none) :
    (devStep thr tthr m row cur).deviation = cur.deviation := by
  by_cases h : thr < m <;> simp [devStep, h, hrow]

theorem devStep_deviation_false (thr tthr m : ℚ) (row cur : DevRow)
    (hrow : row.devStart = none) (hcur : cur.deviation = false) :
    (devStep thr tthr m row cur).deviation = false := by
  rw [devStep_deviation thr tthr m row cur hrow]; exact hcur

theorem initDevRow_devStart (s : Sample) : (initDevRow s).devStart = none := rfl

theorem adhLoop_ok (dist : ℚ × ℚ → ℚ × ℚ → ℚ) (route : List RoutePoint)
    (thr tthr : ℚ) (init : List DevRow)
    (hroute : route ≠ [])
    (hinit : ∀ r ∈ init, r.devStart = none) :
    ∀ (fuel : ℕ) (table : List DevRow) (idx : ℕ),
      (∀ r ∈ table, r.deviation = false) →
      ∃ out, adhLoop dist route thr tthr init table idx fuel = .ok out ∧
        ∀ r ∈ out, r.deviation = false := by
  intro fuel
  induction fuel with
  | zero => intro table idx htable; exact ⟨table, rfl, htable⟩
  | succ n ih =>
    intro table idx htable
    have hrowStart : (init.getD idx default).devStart = none := by
      by_cases h : idx < init.length
      · rw [List.getD_eq_getElem _ _ h]; exact hinit _ (List.getElem_mem h)
      · rw [List.getD_eq_default _ _ (le_of_not_lt h)]; rfl
    have hcur : (table.getD idx default).deviation = false := by
      by_cases h : idx < table.length
      · rw [List.getD_eq_getElem _ _ h]; exact htable _ (List.getElem_mem h)
      · rw [List.getD_eq_default _ _ (le_of_not_lt h)]; rfl
    simp only [adhLoop]
    cases hfind : find_nearest_route_point dist
        ((init.getD idx default).sample.lat, (init.getD idx default).sample.lon)
        route with
    | none =>
      exact absurd ((find_nearest_route_point_eq_none_iff _ _ _).mp hfind) hroute
    | some mr =>
      obtain ⟨m, r⟩ := mr
      refine ih _ (idx + 1) ?_
      intro x hx
      rcases List.mem_or_eq_of_mem_set hx with hx | rfl
      · exact htable x hx
      · exact devStep_deviation_false thr tthr m _ _ hrowStart hcur

/-- The function `check_route_adherence` succeeds whenever the route has a waypoint, and
its output never carries a `Deviation = True` flag: the `iterrows` snapshot
makes `pd.isna(row['Deviation_Start'])` true at every iteration, so the
duration branch at src/main.py lines 106-109 is unreachable. -/
theorem check_route_adherence_ok (dist : ℚ × ℚ → ℚ × ℚ → ℚ)
    (route : List RoutePoint) (thr tthr : ℚ) (data : List Sample)
    (hroute : route ≠ []) :
    ∃ out, check_route_adherence dist route thr tthr data = .ok out ∧
      ∀ r ∈ out, r.deviation = false := by
  refine adhLoop_ok dist route thr tthr (data.map initDevRow) hroute ?_ _ _ 0 ?_
  · intro r hr
    obtain ⟨s, _, rfl⟩ := List.mem_map.mp hr
    rfl
  · intro r hr
    obtain ⟨s, _, rfl⟩ := List.mem_map.mp hr
    rfl

theorem check_route_adherence_empty_route (dist : ℚ × ℚ → ℚ × ℚ → ℚ)
    (thr tthr : ℚ) (data : List Sample) (hdata : data ≠ []) :
    check_route_adherence dist [] thr tthr data = .error .EmptyRoute := by
  cases data with
  | nil => exact absurd rfl hdata
  | cons s ss =>
    simp only [check_route_adherence, List.map_cons, List.length_cons, adhLoop,
      find_nearest_route_point]

theorem except_bind_ok {α β : Type} (a : α) (f : α → Except DevError β) :
    (Except.ok a >>= f) = f a := rfl

theorem except_bind_error {α β : Type} (e : DevError) (f : α → Except DevError β) :
    ((Except.error e : Except DevError α) >>= f) = .error e := rfl

theorem deviation_pass_empty_route (dist : ℚ × ℚ → ℚ × ℚ → ℚ) (thr tthr : ℚ) :
    ∀ groups : List (String × List Sample), (∃ g ∈ groups, g.2 ≠ []) →
      deviation_pass dist [] thr tthr groups = .error .EmptyRoute := by
  intro groups
  induction groups with
  | nil => rintro ⟨g, hg, _⟩; cases hg
  | cons g gs ih =>
    rintro ⟨w, hw, hne⟩
    rcases List.mem_cons.mp hw with rfl | hw
    · have herr : check_route_adherence dist [] thr tthr w.2 = .error .EmptyRoute :=
        check_route_adherence_empty_route dist thr tthr w.2 hne
      simp [deviation_pass, herr, except_bind_error]
    · by_cases hg2 : g.2 = []
      · have hok : check_route_adherence dist [] thr tthr g.2 = .ok [] := by
          rw [hg2]; rfl
        have hrest := ih ⟨w, hw, hne⟩
        simp [deviation_pass, hok, hrest, except_bind_ok, except_bind_error]
      · have herr : check_route_adherence dist [] thr tthr g.2 = .error .EmptyRoute :=
          check_route_adherence_empty_route dist thr tthr g.2 hg2
        simp [deviation_pass, herr, except_bind_error]

/-- C7: on a route with zero waypoints the nearest-point lookup never
returns a match (`Series.idxmin` raises there, before any distance is
produced), the per-entity scan fails with the `EmptyRoute` error, and the
failure propagates through `groupby(...).apply(...)`: the whole deviation
pass aborts as soon as any entity has at least one sample, instead of the
failure being confined to one entity. -/
theorem empty_route_global_failure (dist : ℚ × ℚ → ℚ × ℚ → ℚ) (p : ℚ × ℚ)
    (thr tthr : ℚ) (groups : List (String × List Sample))
    (h : ∃ g ∈ groups, g.2 ≠ []) :
    find_nearest_route_point dist p [] = none ∧
    (∀ data : List Sample, data ≠ [] →
      check_route_adherence dist [] thr tthr data = .error .EmptyRoute) ∧
    deviation_pass dist [] thr tthr groups = .error .EmptyRoute :=
  ⟨rfl, fun data hdata => check_route_adherence_empty_route dist thr tthr data hdata,
    deviation_pass_empty_route dist thr tthr groups h⟩

theorem empty_route_global_failure_witness :
    (∃ g ∈ [("P1", [(⟨10, 10, 0⟩ : Sample)])], g.2 ≠ ([] : List Sample)) ∧
    (find_nearest_route_point sqDist (10, 10) [] = none ∧
     (∀ data : List Sample, data ≠ [] →
       check_route_adherence sqDist [] 100 6 data = .error .EmptyRoute) ∧
     deviation_pass sqDist [] 100 6 [("P1", [⟨10, 10, 0⟩])] = .error .EmptyRoute) :=
  ⟨⟨("P1", [⟨10, 10, 0⟩]), by simp⟩,
    empty_route_global_failure sqDist (10, 10) 100 6 [("P1", [⟨10, 10, 0⟩])]
      ⟨("P1", [⟨10, 10, 0⟩]), by simp⟩⟩

/-- C1: the code never reports a deviation.  On a trajectory that stays
farther than the adherence threshold from the single route point at every
sample from `t0 = 0` on, with samples at 0 h, 3 h and 7 h and a 6 h
deviation-time threshold, the claim requires the 7 h sample to be flagged;
`check_route_adherence` flags nothing, because the row yielded by
`iterrows` always carries the initialised `Deviation_Start = NaT`, making
the duration branch (src/main.py lines 106-109) unreachable. -/
theorem deviating_trajectory_never_flagged :
    (100 : ℚ) < sqDist (100, 100) (0, 0) ∧ (6 : ℚ) ≤ 7 - 0 ∧
    check_route_adherence sqDist [⟨0, 0⟩] 100 6
      [⟨100, 100, 0⟩, ⟨100, 100, 3⟩, ⟨100, 100, 7⟩] =
    .ok [⟨⟨100, 100, 0⟩, false, some 0⟩,
         ⟨⟨100, 100, 3⟩, false, some 3⟩,
         ⟨⟨100, 100, 7⟩, false, some 7⟩] := by
  refine ⟨by norm_num [sqDist], by norm_num, ?_⟩
  norm_num [check_route_adherence, adhLoop, devStep, find_nearest_route_point,
    initDevRow, sqDist, List.set]

/-- C2: the open deviation window's start is NOT an invariant of the
per-sample step.  Two consecutive off-route samples at 0 h and 1 h: the
claim requires the second sample's window start to remain 0 h (the first
off-route sample of the episode), but the code overwrites
`Deviation_Start` with each off-route sample's own timestamp — the second
row ends up with start 1 h. -/
theorem deviation_window_start_is_reset :
    (100 : ℚ) < sqDist (100, 100) (0, 0) ∧
    check_route_adherence sqDist [⟨0, 0⟩] 100 6
      [⟨100, 100, 0⟩, ⟨100, 100, 1⟩] =
    .ok [⟨⟨100, 100, 0⟩, false, some 0⟩,
         ⟨⟨100, 100, 1⟩, false, some 1⟩] ∧
    (some (1 : ℚ) ≠ some (0 : ℚ)) := by
  refine ⟨by norm_num [sqDist], ?_, by norm_num⟩
  norm_num [check_route_adherence, adhLoop, devStep, find_nearest_route_point,
    initDevRow, sqDist, List.set]

/-- C8 counterexample: on an entity whose timestamps are out of order
(5 h followed by 3 h) the deviation analysis does not fail at all — there
is no timestamp-order validation anywhere in `check_route_adherence`, and
its only failure mode is the empty-route exception — so the claimed
`UnsortedTrajectory` failure does not happen. -/
theorem unsorted_trajectory_not_rejected_cex :
    check_route_adherence sqDist [⟨0, 0⟩] 100 6 [⟨0, 0, 5⟩, ⟨0, 0, 3⟩] =
      .ok [⟨⟨0, 0, 5⟩, false, none⟩, ⟨⟨0, 0, 3⟩, false, none⟩] := by
  norm_num [check_route_adherence, adhLoop, devStep, find_nearest_route_point,
    initDevRow, sqDist, List.set]

/-- C8 amended: the deviation analysis performs no timestamp-order
validation.  For every entity whose trajectory is not strictly sorted by
timestamp the scan still completes without any error whenever the route is
non-empty, and it produces no duration-based flags (indeed it never
produces any deviation flag). -/
theorem unsorted_trajectory_processed_without_error
    (dist : ℚ × ℚ → ℚ × ℚ → ℚ) (route : List RoutePoint) (thr tthr : ℚ)
    (data : List Sample) (hroute : route ≠ [])
    (_hunsorted : ¬ List.Chain' (fun a b : Sample => a.ts < b.ts) data) :
    ∃ out, check_route_adherence dist route thr tthr data = .ok out ∧
      ∀ r ∈ out, r.deviation = false :=
  check_route_adherence_ok dist route thr tthr data hroute

theorem unsorted_trajectory_processed_without_error_witness :
    (([⟨0, 0⟩] : List RoutePoint) ≠ [] ∧
     ¬ List.Chain' (fun a b : Sample => a.ts < b.ts) [⟨0, 0, 5⟩, ⟨0, 0, 3⟩]) ∧
    ∃ out, check_route_adherence sqDist [⟨0, 0⟩] 100 6 [⟨0, 0, 5⟩, ⟨0, 0, 3⟩] =
      .ok out ∧ ∀ r ∈ out, r.deviation = false :=
  ⟨⟨by simp, by norm_num [List.chain'_cons]⟩,
    unsorted_trajectory_processed_without_error sqDist [⟨0, 0⟩] 100 6
      [⟨0, 0, 5⟩, ⟨0, 0, 3⟩] (by simp)
      (by norm_num [List.chain'_cons])⟩

/-- Stable insertion of a sample into a timestamp-sorted list, the building
block of the embedding of `trip_data.sort_values(by='Timestamp')`
(src/main.py line 131, src/main2.py line 43). -/
def insertTs (s : Sample) : List Sample → List Sample
  | [] => [s]
  | t :: ts => if s.ts ≤ t.ts then s :: t :: ts else t :: insertTs s ts

/-- Embedding of `sort_values(by='Timestamp')`: sort the rows by timestamp. -/
def sortByTs : List Sample → List Sample
  | [] => []
  | s :: ss => insertTs s (sortByTs ss)

theorem insertTs_of_le (s t : Sample) (ts : List Sample) (h : s.ts ≤ t.ts) :
    insertTs s (t :: ts) = s :: t :: ts := by
  simp [insertTs, h]

theorem sortByTs_of_sorted (data : List Sample)
    (h : List.Chain' (fun a b : Sample => a.ts ≤ b.ts) data) :
    sortByTs data = data := by
  induction data with
  | nil => rfl
  | cons s ss ih =>
    have hss : List.Chain' (fun a b : Sample => a.ts ≤ b.ts) ss :=
      (List.chain'_cons'.mp h).2
    rw [sortByTs, ih hss]
    cases ss with
    | nil => rfl
    | cons t ts =>
      exact insertTs_of_le s t ts (List.chain'_cons.mp h).1

/-- An `ongoing_trips` row inside `detect_stationary_pallets`
(src/main.py): the sample plus the columns initialised at lines 132-133. -/
structure StatRow where
  sample : Sample
  stationary : Bool
  statStart : Option ℚ
deriving Repr, DecidableEq, Inhabited

/-- One iteration of the loop at src/main.py lines 135-146 for a row with a
predecessor: flag the current row iff the displacement from the previous
row is within the stationary distance threshold and the elapsed time
reaches the stationary time threshold; record the window start as the
previous row's timestamp, else leave it `NaT`. -/
def statRow (dist : ℚ × ℚ → ℚ × ℚ → ℚ) (dthr tthr : ℚ) (prev cur : Sample) :
    StatRow :=
  if dist (cur.lat, cur.lon) (prev.lat, prev.lon) ≤ dthr ∧ tthr ≤ cur.ts - prev.ts
  then { sample := cur, stationary := true, statStart := some prev.ts }
  else { sample := cur, stationary := false, statStart := none }

/-- The rows after the first one, each evaluated against its immediate
predecessor (`trip_data.iloc[idx - 1]`). -/
def statScan (dist : ℚ × ℚ → ℚ × ℚ → ℚ) (dthr tthr : ℚ) :
    Sample → List Sample → List StatRow
  | _, [] => []
  | prev, cur :: rest =>
    statRow dist dthr tthr prev cur :: statScan dist dthr tthr cur rest

/-- Embedding of `detect_stationary_pallets` (src/main.py lines 130-148) over one
entity's rows: sort by timestamp, skip the first row (`idx == 0`), and
evaluate every later row against its immediate predecessor only. -/
def detect_stationary_pallets (dist : ℚ × ℚ → ℚ × ℚ → ℚ) (dthr tthr : ℚ)
    (data : List Sample) : List StatRow :=
  match sortByTs data with
  | [] => []
  | s :: rest =>
    { sample := s, stationary := false, statStart := none } ::
      statScan dist dthr tthr s rest

theorem statScan_length (dist : ℚ × ℚ → ℚ × ℚ → ℚ) (dthr tthr : ℚ) :
    ∀ (l : List Sample) (prev : Sample),
      (statScan dist dthr tthr prev l).length = l.length := by
  intro l
  induction l with
  | nil => intro prev; rfl
  | cons cur rest ih => intro prev; simp [statScan, ih]

theorem statScan_getD (dist : ℚ × ℚ → ℚ × ℚ → ℚ) (dthr tthr : ℚ) :
    ∀ (l : List Sample) (prev : Sample) (i : ℕ), i < l.length →
      (statScan dist dthr tthr prev l).getD i default =
        statRow dist dthr tthr ((prev :: l).getD i default)
          (l.getD i default) := by
  intro l
  induction l with
  | nil => intro prev i hi; cases hi
  | cons cur rest ih =>
    intro prev i hi
    cases i with
    | zero => rfl
    | succ k =>
      have hk : k < rest.length := Nat.lt_of_succ_lt_succ hi
      simpa [statScan] using ih cur k hk

theorem insertTs_length (s : Sample) :
    ∀ l : List Sample, (insertTs s l).length = l.length + 1 := by
  intro l
  induction l with
  | nil => rfl
  | cons t ts ih =>
    by_cases h : s.ts ≤ t.ts <;> simp [insertTs, h, ih]

theorem sortByTs_length : ∀ l : List Sample, (sortByTs l).length = l.length := by
  intro l
  induction l with
  | nil => rfl
  | cons s ss ih => simp [sortByTs, insertTs_length, ih]

theorem detect_stationary_pallets_length (dist : ℚ × ℚ → ℚ × ℚ → ℚ)
    (dthr tthr : ℚ) (data : List Sample) :
    (detect_stationary_pallets dist dthr tthr data).length = data.length := by
  rw [← sortByTs_length data]
  simp only [detect_stationary_pallets]
  cases h : sortByTs data with
  | nil => simp
  | cons s rest => simp [statScan_length]

theorem detect_stationary_pallets_cons (dist : ℚ × ℚ → ℚ × ℚ → ℚ)
    (dthr tthr : ℚ) (s : Sample) (rest : List Sample)
    (h : sortByTs (s :: rest) = s :: rest) :
    detect_stationary_pallets dist dthr tthr (s :: rest) =
      { sample := s, stationary := false, statStart := none } ::
        statScan dist dthr tthr s rest := by
  simp only [detect_stationary_pallets]
  rw [h]

/-- C3: on a timestamp-sorted trajectory, `detect_stationary_pallets`
(src/main.py lines 130-148) flags a row if and only if its geodesic
displacement from the immediately preceding row is at most the stationary
distance threshold and the elapsed time is at least the stationary time
threshold (both boundaries inclusive); the flagged row's window start is
the predecessor's timestamp (`NaT` otherwise), the first row is never
flagged, and each row's outcome is a function of that row and its
immediate predecessor alone — no accumulation over more than two
samples. -/
theorem pairwise_stationary_characterisation (dist : ℚ × ℚ → ℚ × ℚ → ℚ)
    (dthr tthr : ℚ) (data : List Sample)
    (hsorted : List.Chain' (fun a b : Sample => a.ts ≤ b.ts) data) :
    (detect_stationary_pallets dist dthr tthr data).length = data.length ∧
    (0 < data.length →
      (detect_stationary_pallets dist dthr tthr data).getD 0 default =
        { sample := data.getD 0 default, stationary := false,
          statStart := none }) ∧
    (∀ i, i + 1 < data.length →
      (detect_stationary_pallets dist dthr tthr data).getD (i + 1) default =
        statRow dist dthr tthr (data.getD i default)
          (data.getD (i + 1) default)) ∧
    (∀ prev cur : Sample,
      ((statRow dist dthr tthr prev cur).stationary = true ↔
        dist (cur.lat, cur.lon) (prev.lat, prev.lon) ≤ dthr ∧
          tthr ≤ cur.ts - prev.ts) ∧
      (statRow dist dthr tthr prev cur).sample = cur ∧
      (statRow dist dthr tthr prev cur).statStart =
        (if dist (cur.lat, cur.lon) (prev.lat, prev.lon) ≤ dthr ∧
            tthr ≤ cur.ts - prev.ts then some prev.ts else none)) := by
  have hs : sortByTs data = data := sortByTs_of_sorted data hsorted
  refine ⟨detect_stationary_pallets_length dist dthr tthr data, ?_, ?_, ?_⟩
  · intro h0
    cases data with
    | nil => cases h0
    | cons s rest =>
      rw [detect_stationary_pallets_cons dist dthr tthr s rest hs]
      rfl
  · intro i hi
    cases data with
    | nil => cases hi
    | cons s rest =>
      have hi' : i < rest.length := Nat.lt_of_succ_lt_succ hi
      rw [detect_stationary_pallets_cons dist dthr tthr s rest hs,
        List.getD_cons_succ, statScan_getD dist dthr tthr rest s i hi',
        List.getD_cons_succ]
  · intro prev cur
    by_cases h : dist (cur.lat, cur.lon) (prev.lat, prev.lon) ≤ dthr ∧
        tthr ≤ cur.ts - prev.ts <;>
      simp [statRow, h]

theorem pairwise_stationary_characterisation_witness :
    List.Chain' (fun a b : Sample => a.ts ≤ b.ts)
      [⟨10, 20, 0⟩, ⟨10, 20, 48⟩] ∧
    ((detect_stationary_pallets sqDist 500 48 [⟨10, 20, 0⟩, ⟨10, 20, 48⟩]).length =
        ([⟨10, 20, 0⟩, ⟨10, 20, 48⟩] : List Sample).length ∧
      (0 < ([⟨10, 20, 0⟩, ⟨10, 20, 48⟩] : List Sample).length →
        (detect_stationary_pallets sqDist 500 48
            [⟨10, 20, 0⟩, ⟨10, 20, 48⟩]).getD 0 default =
          { sample := ([⟨10, 20, 0⟩, ⟨10, 20, 48⟩] : List Sample).getD 0 default,
            stationary := false, statStart := none }) ∧
      (∀ i, i + 1 < ([⟨10, 20, 0⟩, ⟨10, 20, 48⟩] : List Sample).length →
        (detect_stationary_pallets sqDist 500 48
            [⟨10, 20, 0⟩, ⟨10, 20, 48⟩]).getD (i + 1) default =
          statRow sqDist 500 48
            (([⟨10, 20, 0⟩, ⟨10, 20, 48⟩] : List Sample).getD i default)
            (([⟨10, 20, 0⟩, ⟨10, 20, 48⟩] : List Sample).getD (i + 1) default)) ∧
      (∀ prev cur : Sample,
        ((statRow sqDist 500 48 prev cur).stationary = true ↔
          sqDist (cur.lat, cur.lon) (prev.lat, prev.lon) ≤ 500 ∧
            (48 : ℚ) ≤ cur.ts - prev.ts) ∧
        (statRow sqDist 500 48 prev cur).sample = cur ∧
        (statRow sqDist 500 48 prev cur).statStart =
          (if sqDist (cur.lat, cur.lon) (prev.lat, prev.lon) ≤ 500 ∧
              (48 : ℚ) ≤ cur.ts - prev.ts then some prev.ts else none))) :=
  ⟨by norm_num [List.chain'_cons],
    pairwise_stationary_characterisation sqDist 500 48
      [⟨10, 20, 0⟩, ⟨10, 20, 48⟩] (by norm_num [List.chain'_cons])⟩

/-- C6: for every position and every non-empty reference route,
`find_nearest_route_point` returns a distance that is a lower bound of the
distances to all waypoints (the true minimum), and the returned waypoint
sits at the first index attaining that minimum — every earlier waypoint is
strictly farther — matching `Series.idxmin`'s first-occurrence tie-break. -/
theorem nearest_route_point_minimum_and_first_tie
    (dist : ℚ × ℚ → ℚ × ℚ → ℚ) (p : ℚ × ℚ) (route : List RoutePoint)
    (h : route ≠ []) :
    ∃ m r, find_nearest_route_point dist p route = some (m, r) ∧
      (∀ q ∈ route, m ≤ dist p (q.lat, q.lon)) ∧
      ∃ i, ∃ hi : i < route.length, route.get ⟨i, hi⟩ = r ∧
        dist p (r.lat, r.lon) = m ∧
        ∀ j, j < i → ∀ hj : j < route.length,
          m < dist p ((route.get ⟨j, hj⟩).lat, (route.get ⟨j, hj⟩).lon) := by
  cases hfind : find_nearest_route_point dist p route with
  | none =>
    exact absurd ((find_nearest_route_point_eq_none_iff dist p route).mp hfind) h
  | some mr =>
    obtain ⟨m, r⟩ := mr
    exact ⟨m, r, rfl, find_nearest_route_point_le dist p route m r hfind,
      find_nearest_route_point_first dist p route m r hfind⟩

theorem nearest_route_point_minimum_and_first_tie_witness :
    (([⟨0, 0⟩, ⟨3, 4⟩] : List RoutePoint) ≠ []) ∧
    (∃ m r, find_nearest_route_point sqDist (0, 0) [⟨0, 0⟩, ⟨3, 4⟩] = some (m, r) ∧
      (∀ q ∈ ([⟨0, 0⟩, ⟨3, 4⟩] : List RoutePoint), m ≤ sqDist (0, 0) (q.lat, q.lon)) ∧
      ∃ i, ∃ hi : i < ([⟨0, 0⟩, ⟨3, 4⟩] : List RoutePoint).length,
        ([⟨0, 0⟩, ⟨3, 4⟩] : List RoutePoint).get ⟨i, hi⟩ = r ∧
        sqDist (0, 0) (r.lat, r.lon) = m ∧
        ∀ j, j < i → ∀ hj : j < ([⟨0, 0⟩, ⟨3, 4⟩] : List RoutePoint).length,
          m < sqDist (0, 0)
            ((([⟨0, 0⟩, ⟨3, 4⟩] : List RoutePoint).get ⟨j, hj⟩).lat,
              (([⟨0, 0⟩, ⟨3, 4⟩] : List RoutePoint).get ⟨j, hj⟩).lon)) :=
  ⟨by simp,
    nearest_route_point_minimum_and_first_tie sqDist (0, 0) [⟨0, 0⟩, ⟨3, 4⟩]
      (by simp)⟩

/- ## The coarse first-vs-last stationary check and alert tiers
   (src/main2.py, `detect_stationary_pallets`, lines 37-63). -/

/-- The row `group.iloc[0]` after `sort_values(by='Timestamp')`
(src/main2.py lines 43-44). -/
def firstSample (group : List Sample) : Sample := (sortByTs group).headD default

/-- The row `group.iloc[-1]` after `sort_values(by='Timestamp')`
(src/main2.py lines 43-45). -/
def lastSample (group : List Sample) : Sample := (sortByTs group).getLastD default

/-- Embedding of `distance_travelled` (src/main2.py lines 48-49): geodesic distance
between the first and last entry of the sorted group. -/
def distance_travelled (dist : ℚ × ℚ → ℚ × ℚ → ℚ) (group : List Sample) : ℚ :=
  dist ((firstSample group).lat, (firstSample group).lon)
    ((lastSample group).lat, (lastSample group).lon)

/-- Embedding of `time_spent` (src/main2.py line 50): elapsed hours between the first
and last entry of the sorted group. -/
def time_spent (group : List Sample) : ℚ :=
  (lastSample group).ts - (firstSample group).ts

/-- The three alert messages of src/main2.py lines 56-61. -/
inductive Alert where
  | initialWarning
  | criticalAlert
  | escalation
deriving Repr, DecidableEq

/-- The alert block (src/main2.py lines 55-61), reached only for a flagged
pallet: three independent, cumulative checks.  `sigma` is
`np.std(data['Timestamp'].diff().dt.total_seconds() / 3600)`, the
corpus-wide standard deviation of raw inter-sample gaps; the scripts
compute it with numpy on floats (an irrational square root in general), so
it enters the embedding as a parameter. -/
def pallet_alerts (thr sigma t : ℚ) (pid : String) : List (String × Alert) :=
  (if 0.8 * thr ≤ t then [(pid, Alert.initialWarning)] else []) ++
    (if thr + 2 * sigma ≤ t then [(pid, Alert.criticalAlert)] else []) ++
    (if thr + 3 * sigma ≤ t then [(pid, Alert.escalation)] else [])

/-- One iteration of the per-pallet loop of `detect_stationary_pallets`
(src/main2.py lines 42-61): the entry appended to `stationary_pallets`
(if any) and the alerts appended for this pallet.  `groupby` never yields
an empty group, so the `[]` case is unreachable in the source; it returns
the neutral result here. -/
def coarseGroup (dist : ℚ × ℚ → ℚ × ℚ → ℚ) (thr sigma : ℚ) (pid : String)
    (group : List Sample) : Option (String × ℚ × ℚ) × List (String × Alert) :=
  if group = [] then (none, [])
  else
    if distance_travelled dist group < 500 ∧ thr ≤ time_spent group then
      (some (pid, (lastSample group).ts, time_spent group),
        pallet_alerts thr sigma (time_spent group) pid)
    else (none, [])

/-- Embedding of `detect_stationary_pallets` of src/main2.py (lines 37-63): fold the
per-group results in group order into the `stationary_pallets` table and
the `alerts` list. -/
def detect_stationary_pallets2 (dist : ℚ × ℚ → ℚ × ℚ → ℚ) (thr sigma : ℚ) :
    List (String × List Sample) →
      List (String × ℚ × ℚ) × List (String × Alert)
  | [] => ([], [])
  | g :: gs =>
    let head := coarseGroup dist thr sigma g.1 g.2
    let rest := detect_stationary_pallets2 dist thr sigma gs
    (head.1.toList ++ rest.1, head.2 ++ rest.2)

/-- C4: the coarse corpus-level check flags an entity with a non-empty
trajectory iff the distance between its first and last (timestamp-sorted)
samples is strictly below 500 m and the elapsed time is at least the
stationary threshold; in particular a pallet whose dwell time falls short
of the threshold by any positive ε is not flagged, regardless of
displacement. -/
theorem coarse_stationary_iff (dist : ℚ × ℚ → ℚ × ℚ → ℚ) (thr sigma : ℚ)
    (pid : String) (group : List Sample) (h : group ≠ []) :
    ((coarseGroup dist thr sigma pid group).1.isSome = true ↔
      distance_travelled dist group < 500 ∧ thr ≤ time_spent group) ∧
    (∀ ε : ℚ, 0 < ε → time_spent group = thr - ε →
      (coarseGroup dist thr sigma pid group).1 = none) := by
  constructor
  · by_cases hc : distance_travelled dist group < 500 ∧ thr ≤ time_spent group <;>
      simp [coarseGroup, h, hc]
  · intro ε hε ht
    have hc : ¬ (distance_travelled dist group < 500 ∧ thr ≤ time_spent group) := by
      rintro ⟨-, hthr⟩
      rw [ht] at hthr
      linarith
    simp [coarseGroup, h, hc]

theorem coarse_stationary_iff_witness :
    (([⟨0, 0, 0⟩, ⟨0, 0, 50⟩] : List Sample) ≠ []) ∧
    (((coarseGroup sqDist 48 1 "P1" [⟨0, 0, 0⟩, ⟨0, 0, 50⟩]).1.isSome = true ↔
      distance_travelled sqDist [⟨0, 0, 0⟩, ⟨0, 0, 50⟩] < 500 ∧
        (48 : ℚ) ≤ time_spent [⟨0, 0, 0⟩, ⟨0, 0, 50⟩]) ∧
    (∀ ε : ℚ, 0 < ε → time_spent [⟨0, 0, 0⟩, ⟨0, 0, 50⟩] = 48 - ε →
      (coarseGroup sqDist 48 1 "P1" [⟨0, 0, 0⟩, ⟨0, 0, 50⟩]).1 = none)) :=
  ⟨by simp,
    coarse_stationary_iff sqDist 48 1 "P1" [⟨0, 0, 0⟩, ⟨0, 0, 50⟩] (by simp)⟩

theorem pallet_alerts_mem_initial (thr sigma t : ℚ) (pid : String) :
    (pid, Alert.initialWarning) ∈ pallet_alerts thr sigma t pid ↔
      0.8 * thr ≤ t := by
  by_cases h1 : 0.8 * thr ≤ t <;> by_cases h2 : thr + 2 * sigma ≤ t <;>
    by_cases h3 : thr + 3 * sigma ≤ t <;>
      simp [pallet_alerts, h1, h2, h3]

theorem pallet_alerts_mem_critical (thr sigma t : ℚ) (pid : String) :
    (pid, Alert.criticalAlert) ∈ pallet_alerts thr sigma t pid ↔
      thr + 2 * sigma ≤ t := by
  by_cases h1 : 0.8 * thr ≤ t <;> by_cases h2 : thr + 2 * sigma ≤ t <;>
    by_cases h3 : thr + 3 * sigma ≤ t <;>
      simp [pallet_alerts, h1, h2, h3]

theorem pallet_alerts_mem_escalation (thr sigma t : ℚ) (pid : String) :
    (pid, Alert.escalation) ∈ pallet_alerts thr sigma t pid ↔
      thr + 3 * sigma ≤ t := by
  by_cases h1 : 0.8 * thr ≤ t <;> by_cases h2 : thr + 2 * sigma ≤ t <;>
    by_cases h3 : thr + 3 * sigma ≤ t <;>
      simp [pallet_alerts, h1, h2, h3]

theorem coarseGroup_flagged (dist : ℚ × ℚ → ℚ × ℚ → ℚ) (thr sigma : ℚ)
    (pid : String) (group : List Sample) (e : String × ℚ × ℚ)
    (al : List (String × Alert))
    (h : coarseGroup dist thr sigma pid group = (some e, al)) :
    thr ≤ time_spent group ∧
      al = pallet_alerts thr sigma (time_spent group) pid := by
  by_cases hnil : group = []
  · rw [coarseGroup, if_pos hnil] at h
    cases h
  · by_cases hc : distance_travelled dist group < 500 ∧ thr ≤ time_spent group
    · rw [coarseGroup, if_neg hnil, if_pos hc] at h
      obtain ⟨-, hal⟩ := Prod.mk.injEq _ _ _ _ ▸ h
      exact ⟨hc.2, hal.symm⟩
    · rw [coarseGroup, if_neg hnil, if_neg hc] at h
      cases h

/-- C5: for an entity flagged by the coarse check, the three alert tiers
are independent and cumulative: tier 1 iff `time_spent ≥ 0.8·thr`, tier 2
iff `time_spent ≥ thr + 2σ`, tier 3 iff `time_spent ≥ thr + 3σ`; an entity
sitting exactly at `thr + 2σ` gets tier 2 and, when it stays below
`thr + 3σ`, does not get tier 3. -/
theorem alert_tiers_iff (dist : ℚ × ℚ → ℚ × ℚ → ℚ) (thr sigma : ℚ)
    (pid : String) (group : List Sample) (e : String × ℚ × ℚ)
    (al : List (String × Alert))
    (h : coarseGroup dist thr sigma pid group = (some e, al)) :
    ((pid, Alert.initialWarning) ∈ al ↔ 0.8 * thr ≤ time_spent group) ∧
    ((pid, Alert.criticalAlert) ∈ al ↔ thr + 2 * sigma ≤ time_spent group) ∧
    ((pid, Alert.escalation) ∈ al ↔ thr + 3 * sigma ≤ time_spent group) ∧
    (time_spent group = thr + 2 * sigma →
      (pid, Alert.criticalAlert) ∈ al ∧
      (time_spent group < thr + 3 * sigma → (pid, Alert.escalation) ∉ al)) := by
  obtain ⟨-, rfl⟩ := coarseGroup_flagged dist thr sigma pid group e al h
  refine ⟨pallet_alerts_mem_initial thr sigma _ pid,
    pallet_alerts_mem_critical thr sigma _ pid,
    pallet_alerts_mem_escalation thr sigma _ pid, ?_⟩
  intro ht
  constructor
  · exact (pallet_alerts_mem_critical thr sigma _ pid).mpr (le_of_eq ht.symm)
  · intro hlt hmem
    exact absurd ((pallet_alerts_mem_escalation thr sigma _ pid).mp hmem)
      (not_le_of_lt hlt)

/-- C10: any entity flagged by the coarse check also receives the tier-1
"Initial Warning": being flagged forces `time_spent ≥ thr`, and for a
non-negative threshold `0.8·thr ≤ thr`, so the tier-1 condition always
holds for flagged entities — tier 1 never distinguishes among them. -/
theorem flagged_implies_initial_warning (dist : ℚ × ℚ → ℚ × ℚ → ℚ)
    (thr sigma : ℚ) (pid : String) (group : List Sample)
    (e : String × ℚ × ℚ) (al : List (String × Alert)) (hthr : 0 ≤ thr)
    (h : coarseGroup dist thr sigma pid group = (some e, al)) :
    (pid, Alert.initialWarning) ∈ al := by
  obtain ⟨hle, rfl⟩ := coarseGroup_flagged dist thr sigma pid group e al h
  refine (pallet_alerts_mem_initial thr sigma _ pid).mpr ?_
  nlinarith

theorem alert_tiers_iff_witness :
    (coarseGroup sqDist 48 1 "P1" [⟨0, 0, 0⟩, ⟨0, 0, 50⟩] =
      (some ("P1", 50, 50),
        [("P1", Alert.initialWarning), ("P1", Alert.criticalAlert)])) ∧
    ((("P1", Alert.initialWarning) ∈
        [("P1", Alert.initialWarning), ("P1", Alert.criticalAlert)] ↔
      0.8 * 48 ≤ time_spent [⟨0, 0, 0⟩, ⟨0, 0, 50⟩]) ∧
    ((("P1", Alert.criticalAlert)) ∈
        [("P1", Alert.initialWarning), ("P1", Alert.criticalAlert)] ↔
      48 + 2 * 1 ≤ time_spent [⟨0, 0, 0⟩, ⟨0, 0, 50⟩]) ∧
    ((("P1", Alert.escalation)) ∈
        [("P1", Alert.initialWarning), ("P1", Alert.criticalAlert)] ↔
      48 + 3 * 1 ≤ time_spent [⟨0, 0, 0⟩, ⟨0, 0, 50⟩]) ∧
    (time_spent [⟨0, 0, 0⟩, ⟨0, 0, 50⟩] = 48 + 2 * 1 →
      ("P1", Alert.criticalAlert) ∈
        [("P1", Alert.initialWarning), ("P1", Alert.criticalAlert)] ∧
      (time_spent [⟨0, 0, 0⟩, ⟨0, 0, 50⟩] < 48 + 3 * 1 →
        ("P1", Alert.escalation) ∉
          [("P1", Alert.initialWarning), ("P1", Alert.criticalAlert)]))) :=
  ⟨by norm_num [coarseGroup, distance_travelled, time_spent, firstSample,
      lastSample, sortByTs, insertTs, pallet_alerts, sqDist] <;>
      exact fun h => absurd h (by simp),
    alert_tiers_iff sqDist 48 1 "P1" [⟨0, 0, 0⟩, ⟨0, 0, 50⟩] ("P1", 50, 50)
      [("P1", Alert.initialWarning), ("P1", Alert.criticalAlert)]
      (by norm_num [coarseGroup, distance_travelled, time_spent, firstSample,
        lastSample, sortByTs, insertTs, pallet_alerts, sqDist] <;>
        exact fun h => absurd h (by simp))⟩

theorem flagged_implies_initial_warning_witness :
    ((0 : ℚ) ≤ 48 ∧
     coarseGroup sqDist 48 1 "P2" [⟨0, 0, 0⟩, ⟨0, 0, 50⟩] =
      (some ("P2", 50, 50),
        [("P2", Alert.initialWarning), ("P2", Alert.criticalAlert)])) ∧
    ("P2", Alert.initialWarning) ∈
      [("P2", Alert.initialWarning), ("P2", Alert.criticalAlert)] :=
  ⟨⟨by norm_num,
      by norm_num [coarseGroup, distance_travelled, time_spent, firstSample,
        lastSample, sortByTs, insertTs, pallet_alerts, sqDist] <;>
        exact fun h => absurd h (by simp)⟩,
    flagged_implies_initial_warning sqDist 48 1 "P2" [⟨0, 0, 0⟩, ⟨0, 0, 50⟩]
      ("P2", 50, 50) [("P2", Alert.initialWarning), ("P2", Alert.criticalAlert)]
      (by norm_num)
      (by norm_num [coarseGroup, distance_travelled, time_spent, firstSample,
        lastSample, sortByTs, insertTs, pallet_alerts, sqDist] <;>
        exact fun h => absurd h (by simp))⟩

/- ## CohortClusterer (spec §4.7).
src/main.py lines 58-62 only invoke `sklearn.cluster.KMeans(...).fit` on
the snapshot's (latitude, longitude) array; the clustering algorithm
itself is library code, not part of this repository, so it is modelled
from the spec below. -/

/-- First index of the minimum of a list together with the minimum,
preferring the earlier index on ties; `none` on the empty list. -/
def argminAux : List ℚ → Option (ℕ × ℚ)
  | [] => none
  | d :: ds =>
    match argminAux ds with
    | none => some (0, d)
    | some (i, m) => if d ≤ m then some (0, d) else some (i + 1, m)

/-- Modelled from the spec: label assignment of the centroid-based
partitioner of §4.7 (the `KMeans` fit invoked at src/main.py line 61 is
external library code).  A position's label is the index of the nearest
centroid under squared Euclidean distance on the raw coordinates, ties
broken towards the lower index. -/
def nearestCentroidIdx (p : ℚ × ℚ) (cs : List (ℚ × ℚ)) : ℕ :=
  ((argminAux (cs.map (fun c => sqDist p c))).map Prod.fst).getD 0

/-- Modelled from the spec: deterministic centroid initialisation standing
in for §4.7's "deterministic given a fixed random seed" — the first K
snapshot positions, padded with the origin when fewer exist, giving
exactly K centroids for any input. -/
def initCentroids (K : ℕ) (pts : List (ℚ × ℚ)) : List (ℚ × ℚ) :=
  (List.range K).map (fun i => pts.getD i (0, 0))

/-- Modelled from the spec: mean of a cluster's positions, keeping the old
centroid when the cluster is empty (the degenerate partition of §4.7). -/
def meanPt (ps : List (ℚ × ℚ)) (fallback : ℚ × ℚ) : ℚ × ℚ :=
  match ps with
  | [] => fallback
  | _ :: _ => ((ps.map Prod.fst).sum / ps.length, (ps.map Prod.snd).sum / ps.length)

/-- Modelled from the spec: one centroid-update round of the iterative
centroid-based partitioning of §4.7. -/
def updateCentroids (cs : List (ℚ × ℚ)) (pts : List (ℚ × ℚ)) : List (ℚ × ℚ) :=
  (List.range cs.length).map (fun k =>
    meanPt (pts.filter (fun p => nearestCentroidIdx p cs = k)) (cs.getD k (0, 0)))

/-- Modelled from the spec: a bounded number of assignment/update rounds
(the sequential, convergent iteration of §5; termination is by the
iteration bound). -/
def lloydIter : ℕ → List (ℚ × ℚ) → List (ℚ × ℚ) → List (ℚ × ℚ)
  | 0, cs, _ => cs
  | n + 1, cs, pts => lloydIter n (updateCentroids cs pts) pts

/-- Modelled from the spec: the CohortClusterer of §4.7 — partition one
snapshot of entity positions into at most K spatial groups and return the
entity-to-label mapping. -/
def cohort_cluster (K iters : ℕ) (snapshot : List (String × (ℚ × ℚ))) :
    List (String × ℕ) :=
  let pts := snapshot.map (fun e => e.2)
  let cs := lloydIter iters (initCentroids K pts) pts
  snapshot.map (fun e => (e.1, nearestCentroidIdx e.2 cs))

theorem argminAux_bound :
    ∀ ds : List ℚ, ds ≠ [] → ∃ i m, argminAux ds = some (i, m) ∧ i < ds.length := by
  intro ds
  induction ds with
  | nil => intro h; exact absurd rfl h
  | cons d rest ih =>
    intro _
    cases hrec : argminAux rest with
    | none => exact ⟨0, d, by simp [argminAux, hrec], by simp⟩
    | some im =>
      obtain ⟨i, m⟩ := im
      obtain ⟨i', m', hsome, hlt⟩ := ih (by
        rintro rfl
        simp [argminAux] at hrec)
      rw [hrec] at hsome
      obtain ⟨rfl, rfl⟩ : i = i' ∧ m = m' := by
        have := hsome
        exact ⟨congrArg (·.1) (Option.some.injEq _ _ ▸ this), by
          simpa using congrArg (·.2) (Option.some.injEq _ _ ▸ this)⟩
      by_cases hd : d ≤ m
      · exact ⟨0, d, by simp [argminAux, hrec, hd], by simp⟩
      · exact ⟨i + 1, m, by simp [argminAux, hrec, hd],
          by simpa using Nat.succ_lt_succ hlt⟩

theorem nearestCentroidIdx_lt (p : ℚ × ℚ) (cs : List (ℚ × ℚ)) (h : cs ≠ []) :
    nearestCentroidIdx p cs < cs.length := by
  have hne : cs.map (fun c => sqDist p c) ≠ [] := by
    simpa using h
  obtain ⟨i, m, hsome, hlt⟩ := argminAux_bound _ hne
  rw [List.length_map] at hlt
  simp [nearestCentroidIdx, hsome, hlt]

theorem updateCentroids_length (cs pts : List (ℚ × ℚ)) :
    (updateCentroids cs pts).length = cs.length := by
  simp [updateCentroids]

theorem lloydIter_length :
    ∀ (n : ℕ) (cs pts : List (ℚ × ℚ)),
      (lloydIter n cs pts).length = cs.length := by
  intro n
  induction n with
  | zero => intro cs pts; rfl
  | succ k ih =>
    intro cs pts
    rw [lloydIter, ih, updateCentroids_length]

theorem initCentroids_length (K : ℕ) (pts : List (ℚ × ℚ)) :
    (initCentroids K pts).length = K := by
  simp [initCentroids]

/-- C9 (modelled from the spec): for any snapshot and any K ≥ 1 the
clusterer terminates with a mapping listing exactly the input entity ids
in order (hence each id present exactly once when ids are unique), every
assigned label is below K, and at most K distinct labels occur; nothing
fails when the number of distinct positions is below K — the statement
has no hypothesis about positions at all. -/
theorem cohort_cluster_partition (K iters : ℕ)
    (snapshot : List (String × (ℚ × ℚ))) (hK : 1 ≤ K) :
    ((cohort_cluster K iters snapshot).map Prod.fst = snapshot.map Prod.fst) ∧
    (∀ pr ∈ cohort_cluster K iters snapshot, pr.2 < K) ∧
    ((cohort_cluster K iters snapshot).map Prod.snd).toFinset.card ≤ K ∧
    ((snapshot.map Prod.fst).Nodup →
      ∀ pid ∈ snapshot.map Prod.fst,
        ((cohort_cluster K iters snapshot).map Prod.fst).count pid = 1) := by
  have hcs :
      (lloydIter iters (initCentroids K (snapshot.map (fun e => e.2)))
        (snapshot.map (fun e => e.2))).length = K := by
    rw [lloydIter_length, initCentroids_length]
  have hcsne :
      lloydIter iters (initCentroids K (snapshot.map (fun e => e.2)))
        (snapshot.map (fun e => e.2)) ≠ [] := by
    intro hnil
    rw [hnil] at hcs
    simp at hcs
    omega
  have hkeys :
      (cohort_cluster K iters snapshot).map Prod.fst = snapshot.map Prod.fst := by
    simp [cohort_cluster]
  have hlabels : ∀ pr ∈ cohort_cluster K iters snapshot, pr.2 < K := by
    intro pr hpr
    obtain ⟨e, _, rfl⟩ := List.mem_map.mp hpr
    have := nearestCentroidIdx_lt e.2 _ hcsne
    rw [hcs] at this
    exact this
  refine ⟨hkeys, hlabels, ?_, ?_⟩
  · have hsub :
        ((cohort_cluster K iters snapshot).map Prod.snd).toFinset ⊆
          Finset.range K := by
      intro x hx
      rw [List.mem_toFinset] at hx
      obtain ⟨pr, hpr, rfl⟩ := List.mem_map.mp hx
      exact Finset.mem_range.mpr (hlabels pr hpr)
    calc ((cohort_cluster K iters snapshot).map Prod.snd).toFinset.card
        ≤ (Finset.range K).card := Finset.card_le_card hsub
      _ = K := Finset.card_range K
  · intro hnd pid hpid
    rw [hkeys]
    exact List.count_eq_one_of_mem hnd hpid

theorem cohort_cluster_partition_witness :
    1 ≤ 2 ∧
    (((cohort_cluster 2 1 [("A", (0, 0)), ("B", (0, 0))]).map Prod.fst =
        ([("A", ((0 : ℚ), (0 : ℚ))), ("B", (0, 0))]).map Prod.fst) ∧
    (∀ pr ∈ cohort_cluster 2 1 [("A", (0, 0)), ("B", (0, 0))], pr.2 < 2) ∧
    ((cohort_cluster 2 1 [("A", (0, 0)), ("B", (0, 0))]).map Prod.snd).toFinset.card ≤ 2 ∧
    ((([("A", ((0 : ℚ), (0 : ℚ))), ("B", (0, 0))]).map Prod.fst).Nodup →
      ∀ pid ∈ ([("A", ((0 : ℚ), (0 : ℚ))), ("B", (0, 0))]).map Prod.fst,
        ((cohort_cluster 2 1 [("A", (0, 0)), ("B", (0, 0))]).map Prod.fst).count pid = 1)) :=
  ⟨by norm_num,
    cohort_cluster_partition 2 1 [("A", (0, 0)), ("B", (0, 0))] (by norm_num)⟩

end PalletSense
